import Mathlib

/-!
A shallow embedding of the LightLog Python package (`lightlog.pylightlog.Logger`
and `lightlog.decorator.log_prints`) together with proofs about its behaviour.

The native logging core (`cpplightlog.CppLogger`) and the level-constant module
(`levelsvalue`) are not among the analyzed sources; where their behaviour is
needed it is modelled from the specification and marked as such.  Everything
else is translated directly from `src/lightlog/pylightlog.py` and
`src/lightlog/decorator.py`.

Strings that the Python code manipulates character by character (log messages,
the line buffer) are represented as `List Char`; names and file paths, which
are only passed around, stay `String`.  `os.path.abspath` depends on the
process environment, so it is a parameter `absp : String → String` of every
definition that uses it.
-/

/-- Modelled from the spec: the level-constant module `levelsvalue` is not in
the analyzed sources.  The spec fixes `NOTSET = -1` (sentinel: no threshold /
raw passthrough) and the conventional ladder for the named severities. -/
def NOTSET : Int := -1

/-- Modelled from the spec: conventional DEBUG value. -/
def DEBUG : Int := 10

/-- Modelled from the spec: conventional INFO value. -/
def INFO : Int := 20

/-- Modelled from the spec: conventional WARNING value. -/
def WARNING : Int := 30

/-- Modelled from the spec: conventional ERROR value. -/
def ERROR : Int := 40

/-- Modelled from the spec: conventional CRITICAL value. -/
def CRITICAL : Int := 50

/-- Character-level representation of a Python `str` that is inspected
character by character. -/
abbrev Str := List Char

/-- The line-boundary characters of Python's `str.splitlines`. -/
def isLineBoundary (c : Char) : Bool :=
  c = '\n' || c = '\r' || c = '\u000B' || c = '\u000C' || c = '\u001C' ||
  c = '\u001D' || c = '\u001E' || c = '\u0085' || c = '\u2028' || c = '\u2029'

/-- Worker for Python's `str.splitlines(keepends=True)`: `acc` holds the
(reversed) characters of the current line read so far.  A `"\r\n"` pair is a
single boundary; every other line-boundary character ends a line by itself. -/
def splitlinesGo : List Char → List Char → List (List Char)
  | acc, [] => if acc = [] then [] else [acc.reverse]
  | acc, '\r' :: '\n' :: rest => (acc.reverse ++ ['\r', '\n']) :: splitlinesGo [] rest
  | acc, c :: rest =>
    if isLineBoundary c then (acc.reverse ++ [c]) :: splitlinesGo [] rest
    else splitlinesGo (c :: acc) rest

/-- Python's `s.splitlines(keepends=True)`. -/
def splitlinesKeepends (s : Str) : List Str :=
  splitlinesGo [] s

/-- Python's `s.endswith('\n')`. -/
def endsWithNL (s : Str) : Bool :=
  s.getLast? = some '\n'

/-- Splitting on `'\n'` only, keeping the terminator: returns the completed
(`'\n'`-terminated) lines and the trailing unterminated fragment.  This is the
notion of "newline-terminated lines" used by the specification's description
of `write`. -/
def nlSplitGo : List Char → List Char → List (List Char) × List Char
  | acc, [] => ([], acc.reverse)
  | acc, c :: rest =>
    if c = '\n' then
      let p := nlSplitGo [] rest
      ((acc.reverse ++ ['\n']) :: p.1, p.2)
    else
      nlSplitGo (c :: acc) rest

/-- The `'\n'`-terminated lines of `s`, in order. -/
def nlLines (s : Str) : List Str :=
  (nlSplitGo [] s).1

/-- The trailing fragment of `s` after its last `'\n'`. -/
def nlRest (s : Str) : Str :=
  (nlSplitGo [] s).2

/-- A string is benign when its only line-boundary character is `'\n'`
(no carriage returns, vertical tabs, form feeds, separators, NEL, or the
Unicode line/paragraph separators). -/
def benign (s : Str) : Bool :=
  s.all (fun c => c = '\n' || !(isLineBoundary c))

/-- A process-wide console-output target (`sys.stdout`).  `ext n` is an
arbitrary non-Logger target; `loggerT o` is a Logger object whose saved
`original_stdout` is `o`. -/
inductive Target where
  | ext : Nat → Target
  | loggerT : Target → Target
deriving DecidableEq, Repr

/-- One call crossing the boundary into the native core (`CppLogger`).  The
facade's behaviour is recorded as the trace of these calls. -/
inductive CoreEvent where
  | log : Str → Int → Bool → String → CoreEvent
  | flush : CoreEvent
  | reconfigure : String → String → String → Int → Bool → Int → Int → String →
      Int → CoreEvent
  | close : CoreEvent
deriving DecidableEq, Repr

/-- The Python-side state of a `Logger` instance: the attributes set by
`Logger.__init__`. -/
structure LoggerState where
  original_stdout : Target
  use_rank : Bool
  name : String
  file_path : String
  mode : String
  level : Int
  rank : Int
  world_size : Int
  auto_detect_env : String
  buffer : Str
  log_rank : Int
deriving DecidableEq, Repr

/-- Python truthiness merge `x or d` for an optional string argument
(`None` and `""` are falsy). -/
def pyTruthyStr (x : Option String) (d : String) : String :=
  match x with
  | some s => if s = "" then d else s
  | none => d

/-- Python truthiness merge `x or d` for an optional integer argument
(`None` and `0` are falsy). -/
def pyTruthyInt (x : Option Int) (d : Int) : Int :=
  match x with
  | some v => if v = 0 then d else v
  | none => d

/-- Python truthiness merge `x or d` for an optional boolean argument
(`None` and `False` are falsy). -/
def pyTruthyBool (x : Option Bool) (d : Bool) : Bool :=
  match x with
  | some b => if b then b else d
  | none => d

/-- The body of `Logger.write`'s emission loop: for each complete line the
source re-assigns `new_file_path = os_path.abspath(new_file_path) if
new_file_path else ''` and then calls `super().log(line, level, use_rank,
new_file_path)`; the re-assigned path is carried into the next iteration. -/
def emitLines (absp : String → String) : String → Int → Bool → List Str →
    List CoreEvent
  | _, _, _, [] => []
  | p, lvl, ur, l :: ls =>
    let p2 := if p = "" then "" else absp p
    CoreEvent.log l lvl ur p2 :: emitLines absp p2 lvl ur ls

/-- `Logger.__init__` (pylightlog.py lines 102-161): stores the attributes,
applying Python truthiness defaults (`rank or -1`, `world_size or -1`,
`auto_detect_env or 'all'`, `log_rank or -1`, and `abspath(file_path) if
file_path else ''`), saves the current `sys.stdout`, and starts with an empty
buffer. -/
def pyInit (absp : String → String) (stdout : Target) (name : String)
    (file_path : Option String) (mode : String) (level : Int) (use_rank : Bool)
    (rank : Option Int) (world_size : Option Int)
    (auto_detect_env : Option String) (log_rank : Option Int) : LoggerState :=
  { original_stdout := stdout
    use_rank := use_rank
    name := name
    file_path :=
      match file_path with
      | some p => if p = "" then "" else absp p
      | none => ""
    mode := mode
    level := level
    rank := pyTruthyInt rank (-1)
    world_size := pyTruthyInt world_size (-1)
    auto_detect_env := pyTruthyStr auto_detect_env "all"
    buffer := []
    log_rank := pyTruthyInt log_rank (-1) }

/-- `Logger.write` (pylightlog.py lines 176-228): appends the message to the
buffer, splits the buffer with `splitlines(keepends=True)`, keeps the last
element in the buffer when the buffer does not end in `'\n'` (raising
`IndexError`, modelled as `none`, when there is no element to pop), and logs
every remaining line through the core. -/
def pyWrite (absp : String → String) (st : LoggerState) (message : Str)
    (level : Int) (use_rank : Bool) (new_file_path : String) :
    Option (LoggerState × List CoreEvent) :=
  let buffer := st.buffer ++ message
  let lines := splitlinesKeepends buffer
  if endsWithNL buffer then
    some ({ st with buffer := [] },
      emitLines absp new_file_path level (st.use_rank || use_rank) lines)
  else if lines = [] then
    none
  else
    some ({ st with buffer := lines.getLastD [] },
      emitLines absp new_file_path level (st.use_rank || use_rank)
        lines.dropLast)

/-- `Logger.flush` (pylightlog.py lines 230-255): if the buffer is non-empty,
logs it through the core with `level=-1` and the instance's `use_rank` and
clears it; then calls the core's `flush`. -/
def pyFlush (st : LoggerState) : LoggerState × List CoreEvent :=
  if st.buffer = [] then
    (st, [CoreEvent.flush])
  else
    ({ st with buffer := [] },
      [CoreEvent.log st.buffer (-1) st.use_rank "", CoreEvent.flush])

/-- `Logger.log` (pylightlog.py lines 257-298): joins the arguments with
`sep`, appends `end`, resolves the optional file path, and makes a single
core `log` call with `self.use_rank or use_rank`.  The buffer is untouched. -/
def pyLog (absp : String → String) (st : LoggerState) (args : List Str)
    (sep : Str) (endStr : Str) (level : Int) (use_rank : Bool)
    (new_file_path : String) : LoggerState × List CoreEvent :=
  let message := List.intercalate sep args ++ endStr
  let p := if new_file_path = "" then "" else absp new_file_path
  (st, [CoreEvent.log message level (st.use_rank || use_rank) p])

/-- `Logger.info` (pylightlog.py lines 356-381): resolves the file path and
delegates to `log` with `level=INFO`. -/
def pyInfo (absp : String → String) (st : LoggerState) (args : List Str)
    (sep : Str) (endStr : Str) (use_rank : Bool) (new_file_path : String) :
    LoggerState × List CoreEvent :=
  let p := if new_file_path = "" then "" else absp new_file_path
  pyLog absp st args sep endStr INFO use_rank p

/-- `Logger.debug` (pylightlog.py lines 383-408). -/
def pyDebug (absp : String → String) (st : LoggerState) (args : List Str)
    (sep : Str) (endStr : Str) (use_rank : Bool) (new_file_path : String) :
    LoggerState × List CoreEvent :=
  let p := if new_file_path = "" then "" else absp new_file_path
  pyLog absp st args sep endStr DEBUG use_rank p

/-- `Logger.warning` (pylightlog.py lines 410-437). -/
def pyWarning (absp : String → String) (st : LoggerState) (args : List Str)
    (sep : Str) (endStr : Str) (use_rank : Bool) (new_file_path : String) :
    LoggerState × List CoreEvent :=
  let p := if new_file_path = "" then "" else absp new_file_path
  pyLog absp st args sep endStr WARNING use_rank p

/-- `Logger.error` (pylightlog.py lines 439-466). -/
def pyError (absp : String → String) (st : LoggerState) (args : List Str)
    (sep : Str) (endStr : Str) (use_rank : Bool) (new_file_path : String) :
    LoggerState × List CoreEvent :=
  let p := if new_file_path = "" then "" else absp new_file_path
  pyLog absp st args sep endStr ERROR use_rank p

/-- `Logger.critical` (pylightlog.py lines 468-495). -/
def pyCritical (absp : String → String) (st : LoggerState) (args : List Str)
    (sep : Str) (endStr : Str) (use_rank : Bool) (new_file_path : String) :
    LoggerState × List CoreEvent :=
  let p := if new_file_path = "" then "" else absp new_file_path
  pyLog absp st args sep endStr CRITICAL use_rank p

/-- `Logger.reconfigure` (pylightlog.py lines 300-354): merges every supplied
argument over the current attribute with Python truthiness (note that the
source sets `self.log_rank = log_rank or self.rank`, reading the already
merged `self.rank`, and that `mode` has the plain default `'a'`), then calls
`self.flush()`, then the core's `reconfigure` with the merged values. -/
def pyReconfigure (absp : String → String) (st : LoggerState)
    (name : Option String) (new_file_path : Option String) (mode : String)
    (level : Option Int) (use_rank : Option Bool) (rank : Option Int)
    (world_size : Option Int) (auto_detect_env : Option String)
    (log_rank : Option Int) : LoggerState × List CoreEvent :=
  let useRank2 := pyTruthyBool use_rank st.use_rank
  let name2 := pyTruthyStr name st.name
  let filePath2 :=
    match new_file_path with
    | some p => if p = "" then st.file_path else absp p
    | none => st.file_path
  let mode2 := if mode = "" then st.mode else mode
  let level2 := pyTruthyInt level st.level
  let rank2 := pyTruthyInt rank st.rank
  let worldSize2 := pyTruthyInt world_size st.world_size
  let ade2 := pyTruthyStr auto_detect_env st.auto_detect_env
  let logRank2 := pyTruthyInt log_rank rank2
  let st1 : LoggerState :=
    { st with
      use_rank := useRank2
      name := name2
      file_path := filePath2
      mode := mode2
      level := level2
      rank := rank2
      world_size := worldSize2
      auto_detect_env := ade2
      log_rank := logRank2 }
  let f := pyFlush st1
  (f.1, f.2 ++ [CoreEvent.reconfigure name2 filePath2 mode2 level2 useRank2
    rank2 worldSize2 ade2 logRank2])

/-- `Logger.redirect_print` (pylightlog.py lines 497-518): flushes, then sets
`sys.stdout` to the logger object itself. -/
def pyRedirectPrint (st : LoggerState) (_stdout : Target) :
    LoggerState × Target × List CoreEvent :=
  let f := pyFlush st
  (f.1, Target.loggerT st.original_stdout, f.2)

/-- `Logger.reset_print` (pylightlog.py lines 520-537): flushes, then sets
`sys.stdout` to the target saved at this Logger's construction —
unconditionally, whether or not `redirect_print` was ever called. -/
def pyResetPrint (st : LoggerState) (_stdout : Target) :
    LoggerState × Target × List CoreEvent :=
  let f := pyFlush st
  (f.1, st.original_stdout, f.2)

/-- `Logger.close` (pylightlog.py lines 539-554): flush, `reset_print`, then
the core's `close`. -/
def pyClose (st : LoggerState) (stdout : Target) :
    LoggerState × Target × List CoreEvent :=
  let f := pyFlush st
  let r := pyResetPrint f.1 stdout
  (r.1, r.2.1, f.2 ++ r.2.2 ++ [CoreEvent.close])

/-- `Logger.__del__` (pylightlog.py lines 163-174): flush, `close`,
`reset_print`. -/
def pyDel (st : LoggerState) (stdout : Target) :
    LoggerState × Target × List CoreEvent :=
  let f := pyFlush st
  let c := pyClose f.1 stdout
  let r := pyResetPrint c.1 c.2.1
  (r.1, r.2.1, f.2 ++ c.2.2 ++ r.2.2)

/-- `Logger.__enter__` (pylightlog.py lines 556-567): `redirect_print`. -/
def pyEnter (st : LoggerState) (stdout : Target) :
    LoggerState × Target × List CoreEvent :=
  pyRedirectPrint st stdout

/-- `Logger.__exit__` (pylightlog.py lines 569-580): `reset_print`,
returning `None` so that any exception propagates. -/
def pyExit (st : LoggerState) (stdout : Target) :
    LoggerState × Target × List CoreEvent :=
  pyResetPrint st stdout

/-- Modelled from the spec: the native core's configuration state (the nine
construction fields of `CppLogger`). -/
structure CoreState where
  name : String
  file_path : String
  mode : String
  level : Int
  use_rank : Bool
  rank : Int
  world_size : Int
  auto_detect_env : String
  log_rank : Int
deriving DecidableEq, Repr

/-- Modelled from the spec: how a core call updates the core's configuration —
`reconfigure` installs the new full configuration, every other call leaves the
configuration unchanged. -/
def coreStep (cs : CoreState) : CoreEvent → CoreState
  | CoreEvent.reconfigure n f m lv u r w a lr =>
    { name := n
      file_path := f
      mode := m
      level := lv
      use_rank := u
      rank := r
      world_size := w
      auto_detect_env := a
      log_rank := lr }
  | _ => cs

/-- Modelled from the spec: each `log` call in a trace, paired with the file it
is written to at that moment — the explicitly supplied path when one is given,
otherwise the core's currently configured file. -/
def coreEmissions (cs : CoreState) : List CoreEvent → List (Str × String)
  | [] => []
  | CoreEvent.log m lv u p :: evs =>
    (m, if p = "" then cs.file_path else p) ::
      coreEmissions (coreStep cs (CoreEvent.log m lv u p)) evs
  | e :: evs => coreEmissions (coreStep cs e) evs

/-- Modelled from the spec: the `"[<rank>/<world_size>] "` tag the core puts in
front of a line when `use_rank` is true and rank and world size are both
resolved (non-negative); empty otherwise. -/
def rankTag (use_rank : Bool) (rank world_size : Int) : String :=
  if use_rank ∧ 0 ≤ rank ∧ 0 ≤ world_size then
    "[" ++ toString rank ++ "/" ++ toString world_size ++ "] "
  else ""

/-- Modelled from the spec: the display name of a severity level. -/
def levelName (l : Int) : String :=
  if l = DEBUG then "DEBUG"
  else if l = INFO then "INFO"
  else if l = WARNING then "WARNING"
  else if l = ERROR then "ERROR"
  else if l = CRITICAL then "CRITICAL"
  else "NOTSET"

/-- Modelled from the spec: a string centered in an eight-character field. -/
def center8 (s : String) : String :=
  if 8 ≤ s.length then s
  else
    let total := 8 - s.length
    let left := total / 2
    String.mk (List.replicate left ' ') ++ s ++
      String.mk (List.replicate (total - left) ' ')

/-- Modelled from the spec: the core's line formatting.  At the `NOTSET`
sentinel the message is emitted verbatim (no timestamp or level field);
otherwise it becomes `"<timestamp> | <level centered in 8> | <name> |
<message>"`.  Either form is preceded by the rank tag when applicable. -/
def formatLine (timestamp name : String) (rank world_size : Int) (msg : Str)
    (level : Int) (use_rank : Bool) : Str :=
  (rankTag use_rank rank world_size).toList ++
    (if level = NOTSET then msg
     else
       (timestamp ++ " | " ++ center8 (levelName level) ++ " | " ++ name ++
         " | ").toList ++ msg)

/-- A Python function object: either an original function or the decorator's
wrapper around one. -/
inductive PyFunc where
  | base : Nat → PyFunc
  | wrapper : PyFunc → PyFunc
deriving DecidableEq, Repr

/-- A value stored in a class dictionary: a plain function (for which
`inspect.isfunction` holds), a callable that is neither a function, a method
nor a class, or a non-callable value. -/
inductive PyAttr where
  | func : PyFunc → PyAttr
  | callableOther : Nat → PyAttr
  | value : Nat → PyAttr
deriving DecidableEq, Repr

/-- Python's `callable` on a stored attribute. -/
def pyCallable : PyAttr → Bool
  | PyAttr.func _ => true
  | PyAttr.callableOther _ => true
  | PyAttr.value _ => false

/-- A class object: its own `__dict__` entries and the attributes it merely
inherits from base classes. -/
structure PyClass where
  own : List (String × PyAttr)
  inherited : List (String × PyAttr)
deriving DecidableEq, Repr

/-- The class branch of `log_prints`'s `decorator` (decorator.py lines 68-73):
walk the class's own `__dict__`; a callable entry is passed back through the
decorator — a function becomes its wrapper, while a callable that is neither a
function, a method nor a class makes the decorator raise `ValueError`
(decorator.py lines 83-85).  Non-callable entries are left alone. -/
def decorateOwn : List (String × PyAttr) → Except String (List (String × PyAttr))
  | [] => Except.ok []
  | (n, a) :: rest =>
    if pyCallable a then
      match a with
      | PyAttr.func f =>
        (decorateOwn rest).map
          (fun r => (n, PyAttr.func (PyFunc.wrapper f)) :: r)
      | _ =>
        Except.error
          "This decorator can only be applied to functions, methods, or classes."
    else
      (decorateOwn rest).map (fun r => (n, a) :: r)

/-- The attribute transformation the claim describes for a class dictionary
containing only functions and non-callable values. -/
def wrapOk : PyAttr → PyAttr
  | PyAttr.func f => PyAttr.func (PyFunc.wrapper f)
  | a => a

/-- A heap of class objects, indexed by object identity. -/
def ClassHeap : Type := Nat → PyClass

/-- In-place mutation of the class object at index `i`. -/
def heapSet (h : ClassHeap) (i : Nat) (c : PyClass) : ClassHeap :=
  fun j => if j = i then c else h j

/-- `decorator` applied to the class object `i` (decorator.py lines 68-73):
rewrites the class's own dictionary via `setattr` — mutating the object on the
heap — and returns the same object. -/
def decorateClass (h : ClassHeap) (i : Nat) : Except String (ClassHeap × Nat) :=
  match decorateOwn (h i).own with
  | Except.ok own2 => Except.ok (heapSet h i { h i with own := own2 }, i)
  | Except.error e => Except.error e

/-- The configuration captured by `log_prints(...)` (decorator.py lines 8-16).
A reused `logger_instance` is represented by its `LoggerState`. -/
structure DecCfg where
  name : String
  file_path : Option String
  mode : String
  level : Int
  use_rank : Bool
  rank : Option Int
  world_size : Option Int
  auto_detect_env : Option String
  logger_instance : Option LoggerState

/-- `get_logger` (decorator.py lines 57-65): the supplied instance if any
(a Logger object is truthy), otherwise a fresh `Logger` constructed with the
decorator's configuration — at which moment it saves the current
`sys.stdout`.  `log_rank` is not a `log_prints` parameter, so it is `None`. -/
def getLoggerFor (cfg : DecCfg) (absp : String → String) (stdout : Target) :
    LoggerState :=
  match cfg.logger_instance with
  | some inst => inst
  | none =>
    pyInit absp stdout cfg.name cfg.file_path cfg.mode cfg.level cfg.use_rank
      cfg.rank cfg.world_size cfg.auto_detect_env none

/-- The outcome of a wrapped call's body: a returned value or a raised
exception. -/
abbrev PyResult := Except Nat Nat

/-- `wrapper` (decorator.py lines 74-82): acquire the logger, enter its
context (`redirect_print`), run the body — which may read and write
`sys.stdout` and may raise — and leave the context (`reset_print`), which the
`with` statement runs on both normal and exceptional exit; the body's result
or exception passes through unchanged. -/
def runWrapper (cfg : DecCfg) (absp : String → String)
    (body : Target → PyResult × Target) (stdout : Target) :
    PyResult × Target × List CoreEvent :=
  let l := getLoggerFor cfg absp stdout
  let entered := pyEnter l stdout
  let b := body entered.2.1
  let exited := pyExit entered.1 b.2
  (b.1, exited.2.1, entered.2.2 ++ exited.2.2)

/-- The arguments of one `Logger.write` call. -/
structure WriteCall where
  msg : Str
  level : Int
  use_rank : Bool
  path : String
deriving DecidableEq, Repr

/-- A sequence of `write` calls on a Logger, accumulating the core trace;
`none` as soon as one call raises. -/
def runWrites (absp : String → String) :
    LoggerState → List WriteCall → Option (LoggerState × List CoreEvent)
  | st, [] => some (st, [])
  | st, w :: ws => do
    let r1 ← pyWrite absp st w.msg w.level w.use_rank w.path
    let r2 ← runWrites absp r1.1 ws
    pure (r2.1, r1.2 ++ r2.2)

/-- The specification's description of a `write` sequence: each call appends
its message to the pending fragment, emits the `'\n'`-terminated lines of the
result — tagged with that call's level and the OR of the instance's and the
call's `use_rank` — and retains the unterminated fragment. -/
def specWriteRun (absp : String → String) (instUR : Bool) :
    Str → List WriteCall → List CoreEvent × Str
  | buf, [] => ([], buf)
  | buf, w :: ws =>
    let p := nlSplitGo [] (buf ++ w.msg)
    let evs := emitLines absp w.path w.level (instUR || w.use_rank) p.1
    let r := specWriteRun absp instUR p.2 ws
    (evs ++ r.1, r.2)

/-- The messages of the `log` events of a trace, in order. -/
def eventMsgs : List CoreEvent → List Str
  | [] => []
  | CoreEvent.log m _ _ _ :: evs => m :: eventMsgs evs
  | _ :: evs => eventMsgs evs

/-- The concatenation of the messages of a sequence of `write` calls. -/
def concatMsgs (ws : List WriteCall) : Str :=
  (ws.map WriteCall.msg).flatten

/-- A console-only Logger as constructed by
`Logger('L')` with `os.path.abspath` taken as the identity. -/
def logger0 : LoggerState :=
  pyInit id (Target.ext 0) "L" none "a" (-1) false none none none none

/-- A Logger whose overwrite mode, rank and log rank differ pairwise, for
exercising `reconfigure`'s merge. -/
def loggerC1 : LoggerState :=
  { logger0 with mode := "w", rank := 2, log_rank := 5 }

/-- A Logger holding the pending unterminated fragment `"x"`. -/
def loggerC5 : LoggerState :=
  { logger0 with buffer := ['x'] }

/-- A heap whose class object `0` directly declares one callable attribute
that is neither a function, a method nor a class. -/
def heapBad : ClassHeap :=
  fun _ => { own := [("call_me", PyAttr.callableOther 7)], inherited := [] }

/-- A heap whose class object `0` directly declares a method and a plain
value and inherits a method from a base class. -/
def heapGood : ClassHeap :=
  fun _ =>
    { own := [("m", PyAttr.func (PyFunc.base 0)), ("v", PyAttr.value 1)]
      inherited := [("b", PyAttr.func (PyFunc.base 2))] }

/-- A decorator configuration that reuses a Logger instance constructed while
`sys.stdout` was `Target.ext 0`. -/
def cfgReuse : DecCfg :=
  { name := "L"
    file_path := none
    mode := "a"
    level := -1
    use_rank := false
    rank := none
    world_size := none
    auto_detect_env := none
    logger_instance :=
      some (pyInit id (Target.ext 0) "L" none "a" (-1) false none none none
        none) }

/-- A two-call write sequence exercising lines that span calls. -/
def wsW : List WriteCall :=
  [{ msg := ['a', 'b', '\n', 'c'], level := 20, use_rank := false, path := "" },
   { msg := ['d', '\n'], level := 30, use_rank := true, path := "" }]

/-- Holds when an attribute is not a callable-but-not-function value. -/
def notOtherCallable : PyAttr → Bool
  | PyAttr.callableOther _ => false
  | _ => true

/-- A concrete core configuration pointing at an old log file. -/
def coreW : CoreState :=
  { name := "L"
    file_path := "/old.log"
    mode := "a"
    level := -1
    use_rank := false
    rank := -1
    world_size := -1
    auto_detect_env := "all"
    log_rank := -1 }

set_option maxHeartbeats 1000000

theorem getLastD_irrel {α : Type} {l : List α} (h : l ≠ []) (d d' : α) :
    l.getLastD d = l.getLastD d' := by
  rw [List.getLastD_eq_getLast?, List.getLastD_eq_getLast?]
  cases hl : l.getLast? with
  | none => exact absurd (List.getLast?_eq_none_iff.mp hl) h
  | some a => rfl

theorem endsWithNL_append (a b : Str) (h : b ≠ []) :
    endsWithNL (a ++ b) = endsWithNL b := by
  unfold endsWithNL
  rw [List.getLast?_append]
  cases hb : b.getLast? with
  | none => exact absurd (List.getLast?_eq_none_iff.mp hb) h
  | some c => rfl

theorem endsWithNL_concat (x : Str) (c : Char) :
    endsWithNL (x ++ [c]) = true ↔ c = '\n' := by
  unfold endsWithNL
  rw [List.getLast?_concat]
  simp

theorem endsWithNL_rn (x : Str) : endsWithNL (x ++ ['\r', '\n']) = true := by
  have hx : x ++ ['\r', '\n'] = (x ++ ['\r']) ++ ['\n'] := by simp
  rw [hx, endsWithNL_concat]

theorem splitlinesGo_eq_nil (acc s : List Char) :
    splitlinesGo acc s = [] ↔ acc = [] ∧ s = [] := by
  induction acc, s using splitlinesGo.induct with
  | case1 => simp [splitlinesGo]
  | case2 acc h => simp [splitlinesGo, h]
  | case3 acc rest ih => simp [splitlinesGo]
  | case4 acc c rest hg hb ih => rw [splitlinesGo.eq_3 _ _ _ hg]; simp [hb]
  | case5 acc c rest hg hb ih => rw [splitlinesGo.eq_3 _ _ _ hg]; simp [hb, ih]

theorem splitlinesGo_last_no_nl :
    ∀ acc s : List Char, '\n' ∉ acc →
      ¬ endsWithNL (acc.reverse ++ s) = true →
      '\n' ∉ (splitlinesGo acc s).getLastD [] := by
  intro acc s
  induction acc, s using splitlinesGo.induct with
  | case1 => intro _ _; simp [splitlinesGo]
  | case2 acc hne =>
    intro hacc h
    simp only [splitlinesGo, if_neg hne, List.getLastD]
    simpa using hacc
  | case3 acc rest ih =>
    intro hacc h
    rw [splitlinesGo.eq_2]
    by_cases hr : rest = []
    · subst hr
      exact absurd (endsWithNL_rn acc.reverse) h
    · have htail : splitlinesGo [] rest ≠ [] := by
        rw [Ne, splitlinesGo_eq_nil]
        simp [hr]
      rw [List.getLastD_cons, getLastD_irrel htail _ []]
      apply ih (by simp)
      rw [show (List.reverse ([] : List Char)) ++ rest = rest by simp]
      rw [show acc.reverse ++ ('\r' :: '\n' :: rest) =
        (acc.reverse ++ ['\r', '\n']) ++ rest by simp] at h
      rwa [endsWithNL_append _ _ hr] at h
  | case4 acc c rest hg hb ih =>
    intro hacc h
    rw [splitlinesGo.eq_3 _ _ _ hg, if_pos hb]
    by_cases hr : rest = []
    · subst hr
      have hcn : c ≠ '\n' := by
        intro hc
        subst hc
        exact h ((endsWithNL_concat acc.reverse '\n').mpr rfl)
      simp only [splitlinesGo, List.getLastD]
      intro hmem
      rcases List.mem_append.mp hmem with h1 | h1
      · exact hacc (by simpa using h1)
      · simp at h1
        exact hcn h1.symm
    · have htail : splitlinesGo [] rest ≠ [] := by
        rw [Ne, splitlinesGo_eq_nil]
        simp [hr]
      rw [List.getLastD_cons, getLastD_irrel htail _ []]
      apply ih (by simp)
      rw [show (List.reverse ([] : List Char)) ++ rest = rest by simp]
      rw [show acc.reverse ++ (c :: rest) = (acc.reverse ++ [c]) ++ rest by simp] at h
      rwa [endsWithNL_append _ _ hr] at h
  | case5 acc c rest hg hb ih =>
    intro hacc h
    rw [splitlinesGo.eq_3 _ _ _ hg, if_neg hb]
    have hcn : c ≠ '\n' := by
      intro hc
      subst hc
      simp [isLineBoundary] at hb
    apply ih
    · intro hmem
      rcases List.mem_cons.mp hmem with h1 | h1
      · exact hcn h1.symm
      · exact hacc h1
    · rwa [show (c :: acc).reverse ++ rest = acc.reverse ++ (c :: rest) by simp]

theorem nlSplitGo_join :
    ∀ acc s : List Char,
      ((nlSplitGo acc s).1).flatten ++ (nlSplitGo acc s).2 = acc.reverse ++ s := by
  intro acc s
  induction acc, s using nlSplitGo.induct with
  | case1 acc => simp [nlSplitGo]
  | case2 acc rest ih =>
    rw [nlSplitGo.eq_2]
    simp [ih]
  | case3 acc c rest hc ih =>
    rw [nlSplitGo.eq_2, if_neg hc]
    rw [ih]
    simp

theorem nlSplitGo_lines_end :
    ∀ acc s : List Char, ∀ l ∈ (nlSplitGo acc s).1,
      l ≠ [] ∧ l.getLast? = some '\n' := by
  intro acc s
  induction acc, s using nlSplitGo.induct with
  | case1 acc => simp [nlSplitGo]
  | case2 acc rest ih =>
    rw [nlSplitGo.eq_2]
    simp only [if_pos rfl]
    intro l hl
    rcases List.mem_cons.mp hl with h1 | h1
    · subst h1
      refine ⟨by simp, List.getLast?_concat _⟩
    · exact ih l h1
  | case3 acc c rest hc ih =>
    rw [nlSplitGo.eq_2, if_neg hc]
    exact ih

theorem nlSplitGo_rest_no_nl :
    ∀ acc s : List Char, '\n' ∉ acc → '\n' ∉ (nlSplitGo acc s).2 := by
  intro acc s
  induction acc, s using nlSplitGo.induct with
  | case1 acc =>
    intro hacc
    simp only [nlSplitGo]
    simpa using hacc
  | case2 acc rest ih =>
    intro hacc
    rw [nlSplitGo.eq_2]
    simp only [if_pos rfl]
    exact ih (by simp)
  | case3 acc c rest hc ih =>
    intro hacc
    rw [nlSplitGo.eq_2, if_neg hc]
    apply ih
    intro hmem
    rcases List.mem_cons.mp hmem with h1 | h1
    · exact hc h1.symm
    · exact hacc h1

theorem nlSplitGo_rest_no_boundary :
    ∀ acc s : List Char, benign s = true →
      (∀ c ∈ acc, isLineBoundary c = false) →
      ∀ c ∈ (nlSplitGo acc s).2, isLineBoundary c = false := by
  intro acc s
  induction acc, s using nlSplitGo.induct with
  | case1 acc =>
    intro _ hacc
    simp only [nlSplitGo]
    simpa using hacc
  | case2 acc rest ih =>
    intro hs hacc
    rw [nlSplitGo.eq_2]
    simp only [if_pos rfl]
    apply ih _ (by simp)
    simp only [benign, List.all_cons, Bool.and_eq_true] at hs
    exact hs.2
  | case3 acc c rest hc ih =>
    intro hs hacc
    rw [nlSplitGo.eq_2, if_neg hc]
    simp only [benign, List.all_cons, Bool.and_eq_true] at hs
    apply ih hs.2
    intro d hd
    rcases List.mem_cons.mp hd with h1 | h1
    · subst h1
      rcases Bool.or_eq_true_iff.mp hs.1 with h2 | h2
      · exact absurd (by simpa using h2) hc
      · simpa using h2
    · exact hacc d h1

theorem getLastMemOfEq {α : Type} {l : List α} {a : α}
    (h : l.getLast? = some a) : a ∈ l := by
  have hmem : a ∈ l.getLast? := by
    rw [h]
    rfl
  rcases List.mem_getLast?_eq_getLast hmem with ⟨hne, heq⟩
  rw [heq]
  exact List.getLast_mem hne

theorem endsWithNL_eq_true_iff (x : Str) :
    endsWithNL x = true ↔ x.getLast? = some '\n' := by
  simp [endsWithNL]

theorem splitlinesGo_benign :
    ∀ acc s : List Char, benign s = true →
      splitlinesGo acc s =
        (nlSplitGo acc s).1 ++
          (if (nlSplitGo acc s).2 = [] then [] else [(nlSplitGo acc s).2]) := by
  intro acc s
  induction acc, s using splitlinesGo.induct with
  | case1 =>
    intro _
    simp [splitlinesGo, nlSplitGo]
  | case2 acc hne =>
    intro _
    simp [splitlinesGo, nlSplitGo, hne]
  | case3 acc rest ih =>
    intro hs
    exfalso
    simp only [benign, List.all_cons, Bool.and_eq_true] at hs
    rcases Bool.or_eq_true_iff.mp hs.1 with h2 | h2
    · simp at h2
    · simp [isLineBoundary] at h2
  | case4 acc c rest hg hb ih =>
    intro hs
    simp only [benign, List.all_cons, Bool.and_eq_true] at hs
    have hc : c = '\n' := by
      rcases Bool.or_eq_true_iff.mp hs.1 with h2 | h2
      · simpa using h2
      · simp [hb] at h2
    subst hc
    rw [splitlinesGo.eq_3 _ _ _ hg, if_pos hb, nlSplitGo.eq_2]
    simp only [if_pos rfl]
    rw [ih hs.2]
    simp
  | case5 acc c rest hg hb ih =>
    intro hs
    simp only [benign, List.all_cons, Bool.and_eq_true] at hs
    have hc : c ≠ '\n' := by
      intro h2
      subst h2
      simp [isLineBoundary] at hb
    rw [splitlinesGo.eq_3 _ _ _ hg, if_neg hb, nlSplitGo.eq_2, if_neg hc]
    exact ih hs.2

theorem flattenGetLast :
    ∀ ls : List Str, (∀ l ∈ ls, l ≠ []) → ls ≠ [] →
      ls.flatten.getLast? = (ls.getLastD []).getLast? := by
  intro ls
  induction ls with
  | nil => intro _ h; contradiction
  | cons a ls ih =>
    intro hall _
    cases ls with
    | nil => simp [List.getLastD]
    | cons b ls2 =>
      have hbf : (b :: ls2).flatten ≠ [] := by
        intro h0
        have hb : b ≠ [] := hall b (by simp)
        rw [List.flatten_cons] at h0
        exact hb (List.append_eq_nil.mp h0).1
      rw [List.flatten_cons, List.getLast?_append]
      have h2 := ih (fun l hl => hall l (by simp [hl])) (by simp)
      rw [List.getLastD_cons,
        getLastD_irrel (show b :: ls2 ≠ ([] : List Str) by simp) a [], ← h2]
      rcases Option.isSome_iff_exists.mp (List.getLast?_isSome.mpr hbf) with ⟨x, hx⟩
      rw [hx]
      rfl

theorem endsWithNL_iff_rest_nil (s : Str) (hs : s ≠ []) :
    endsWithNL s = true ↔ nlRest s = [] := by
  have hj : (nlLines s).flatten ++ nlRest s = s := by
    have h0 := nlSplitGo_join [] s
    simpa [nlLines, nlRest] using h0
  have hrn : '\n' ∉ nlRest s := nlSplitGo_rest_no_nl [] s (by simp)
  constructor
  · intro hend
    by_contra hne
    have he : endsWithNL ((nlLines s).flatten ++ nlRest s) = endsWithNL (nlRest s) :=
      endsWithNL_append _ _ hne
    rw [hj] at he
    rw [he] at hend
    exact hrn (getLastMemOfEq ((endsWithNL_eq_true_iff _).mp hend))
  · intro hrest
    have hfl : (nlLines s).flatten = s := by
      simpa [hrest] using hj
    have hlne : nlLines s ≠ [] := by
      intro h0
      rw [h0] at hfl
      simp at hfl
      exact hs hfl
    have hall : ∀ l ∈ nlLines s, l ≠ [] :=
      fun l hl => (nlSplitGo_lines_end [] s l hl).1
    have hmem : (nlLines s).getLastD [] ∈ nlLines s := by
      cases h : nlLines s with
      | nil => exact absurd h hlne
      | cons x xs =>
        rw [List.getLastD_cons]
        exact List.getLastD_mem_cons xs x
    have hend2 := (nlSplitGo_lines_end [] s _ hmem).2
    rw [endsWithNL_eq_true_iff, ← hfl, flattenGetLast (nlLines s) hall hlne]
    exact hend2

theorem nlSplitGo_push :
    ∀ pre s acc : List Char, (∀ c ∈ pre, c ≠ '\n') →
      nlSplitGo acc (pre ++ s) = nlSplitGo (pre.reverse ++ acc) s := by
  intro pre
  induction pre with
  | nil => intro s acc _; simp
  | cons c pre ih =>
    intro s acc hpre
    have hc : c ≠ '\n' := hpre c (by simp)
    rw [List.cons_append, nlSplitGo.eq_2, if_neg hc]
    rw [ih s (c :: acc) (fun d hd => hpre d (by simp [hd]))]
    simp

theorem nlSplitGo_append :
    ∀ acc s t : List Char,
      nlSplitGo acc (s ++ t) =
        ((nlSplitGo acc s).1 ++ (nlSplitGo ((nlSplitGo acc s).2.reverse) t).1,
         (nlSplitGo ((nlSplitGo acc s).2.reverse) t).2) := by
  intro acc s
  induction acc, s using nlSplitGo.induct with
  | case1 acc =>
    intro t
    simp [nlSplitGo]
  | case2 acc rest ih =>
    intro t
    rw [List.cons_append, nlSplitGo.eq_2]
    simp only [if_pos rfl]
    rw [nlSplitGo.eq_2]
    simp [ih]
  | case3 acc c rest hc ih =>
    intro t
    rw [List.cons_append, nlSplitGo.eq_2, if_neg hc]
    rw [nlSplitGo.eq_2, if_neg hc]
    exact ih t

theorem benign_append (x y : Str) :
    benign (x ++ y) = (benign x && benign y) := by
  simp [benign, List.all_append]

theorem benign_of_no_boundary (x : Str)
    (h : ∀ c ∈ x, isLineBoundary c = false) : benign x = true := by
  simp only [benign, List.all_eq_true]
  intro c hc
  simp [h c hc]

theorem pyWrite_benign (absp : String → String) (st : LoggerState) (m : Str)
    (lvl : Int) (ur : Bool) (p : String)
    (hb : ∀ c ∈ st.buffer, isLineBoundary c = false)
    (hm : benign m = true) (hne : st.buffer ++ m ≠ []) :
    pyWrite absp st m lvl ur p =
      some ({ st with buffer := nlRest (st.buffer ++ m) },
        emitLines absp p lvl (st.use_rank || ur) (nlLines (st.buffer ++ m))) := by
  have hbb : benign (st.buffer ++ m) = true := by
    rw [benign_append, benign_of_no_boundary st.buffer hb, hm]
    rfl
  have hsl : splitlinesKeepends (st.buffer ++ m) =
      nlLines (st.buffer ++ m) ++
        (if nlRest (st.buffer ++ m) = [] then [] else [nlRest (st.buffer ++ m)]) :=
    splitlinesGo_benign [] (st.buffer ++ m) hbb
  unfold pyWrite
  by_cases hend : endsWithNL (st.buffer ++ m) = true
  · have hrest : nlRest (st.buffer ++ m) = [] :=
      (endsWithNL_iff_rest_nil _ hne).mp hend
    rw [if_pos hend, hsl, hrest]
    simp
  · have hrest : nlRest (st.buffer ++ m) ≠ [] := by
      intro h0
      exact hend ((endsWithNL_iff_rest_nil _ hne).mpr h0)
    rw [if_neg hend, hsl]
    rw [if_neg hrest]
    have hlne : nlLines (st.buffer ++ m) ++ [nlRest (st.buffer ++ m)] ≠ [] := by
      simp
    rw [if_neg hlne]
    rw [List.dropLast_concat]
    rw [List.getLastD_eq_getLast?, List.getLast?_concat]
    rfl

theorem nlSplitGo_no_nl (x : Str) (h : ∀ c ∈ x, c ≠ '\n') :
    nlSplitGo [] x = ([], x) := by
  have h0 := nlSplitGo_push x [] [] h
  simpa [nlSplitGo] using h0

theorem eventMsgs_append (a b : List CoreEvent) :
    eventMsgs (a ++ b) = eventMsgs a ++ eventMsgs b := by
  induction a with
  | nil => simp [eventMsgs]
  | cons e a ih =>
    cases e with
    | log m lv u p => simp [eventMsgs, ih]
    | flush => simp [eventMsgs, ih]
    | reconfigure n f mo lv u r w ad lr => simp [eventMsgs, ih]
    | close => simp [eventMsgs, ih]

theorem eventMsgs_emitLines (absp : String → String) :
    ∀ (ls : List Str) (p : String) (lvl : Int) (ur : Bool),
      eventMsgs (emitLines absp p lvl ur ls) = ls := by
  intro ls
  induction ls with
  | nil => intro p lvl ur; simp [emitLines, eventMsgs]
  | cons l ls ih => intro p lvl ur; simp [emitLines, eventMsgs, ih]

theorem runWrites_eq_spec (absp : String → String) :
    ∀ (ws : List WriteCall) (st : LoggerState),
      (∀ c ∈ st.buffer, isLineBoundary c = false) →
      (∀ w ∈ ws, w.msg ≠ [] ∧ benign w.msg = true) →
      runWrites absp st ws =
        some ({ st with buffer := (specWriteRun absp st.use_rank st.buffer ws).2 },
          (specWriteRun absp st.use_rank st.buffer ws).1) := by
  intro ws
  induction ws with
  | nil =>
    intro st hb hw
    simp [runWrites, specWriteRun]
  | cons w ws ih =>
    intro st hb hw
    have hm := hw w (by simp)
    have hne : st.buffer ++ w.msg ≠ [] := by
      intro h0
      exact hm.1 (List.append_eq_nil.mp h0).2
    have hbb : benign (st.buffer ++ w.msg) = true := by
      rw [benign_append, benign_of_no_boundary st.buffer hb, hm.2]
      rfl
    have hb2 : ∀ c ∈ nlRest (st.buffer ++ w.msg), isLineBoundary c = false :=
      nlSplitGo_rest_no_boundary [] (st.buffer ++ w.msg) hbb (by simp)
    have ih2 := ih { st with buffer := nlRest (st.buffer ++ w.msg) } hb2
      (fun w2 h2 => hw w2 (by simp [h2]))
    rw [runWrites]
    rw [pyWrite_benign absp st w.msg w.level w.use_rank w.path hb hm.2 hne]
    simp only [Option.bind_eq_bind, Option.some_bind]
    rw [ih2]
    simp only [Option.some_bind]
    rw [specWriteRun]
    simp [nlLines, nlRest]

theorem specWriteRun_chars (absp : String → String) (u : Bool) :
    ∀ (ws : List WriteCall) (buf : Str),
      (∀ c ∈ buf, isLineBoundary c = false) →
      (∀ w ∈ ws, benign w.msg = true) →
      eventMsgs (specWriteRun absp u buf ws).1 = nlLines (buf ++ concatMsgs ws) ∧
      (specWriteRun absp u buf ws).2 = nlRest (buf ++ concatMsgs ws) := by
  intro ws
  induction ws with
  | nil =>
    intro buf hb _
    have hnn : ∀ c ∈ buf, c ≠ '\n' := by
      intro c hc h0
      subst h0
      have := hb '\n' hc
      simp [isLineBoundary] at this
    have h0 := nlSplitGo_no_nl buf hnn
    simp [specWriteRun, concatMsgs, eventMsgs, nlLines, nlRest, h0]
  | cons w ws ih =>
    intro buf hb hw
    have hm := hw w (by simp)
    have hbb : benign (buf ++ w.msg) = true := by
      rw [benign_append, benign_of_no_boundary buf hb, hm]
      rfl
    have hb2 : ∀ c ∈ nlRest (buf ++ w.msg), isLineBoundary c = false :=
      nlSplitGo_rest_no_boundary [] (buf ++ w.msg) hbb (by simp)
    have hnn2 : ∀ c ∈ nlRest (buf ++ w.msg), c ≠ '\n' := by
      intro c hc h0
      subst h0
      have := hb2 '\n' hc
      simp [isLineBoundary] at this
    have ihr := ih (nlRest (buf ++ w.msg)) hb2 (fun w2 h2 => hw w2 (by simp [h2]))
    have happ := nlSplitGo_append [] (buf ++ w.msg) (concatMsgs ws)
    have hpush := nlSplitGo_push (nlRest (buf ++ w.msg)) (concatMsgs ws) [] hnn2
    rw [specWriteRun]
    constructor
    · show eventMsgs (emitLines absp w.path w.level (u || w.use_rank)
        (nlSplitGo [] (buf ++ w.msg)).1 ++
          (specWriteRun absp u (nlSplitGo [] (buf ++ w.msg)).2 ws).1) = _
      rw [eventMsgs_append, eventMsgs_emitLines]
      rw [show ((nlSplitGo [] (buf ++ w.msg)).2 : Str) = nlRest (buf ++ w.msg) from rfl]
      rw [ihr.1]
      rw [show buf ++ concatMsgs (w :: ws) = (buf ++ w.msg) ++ concatMsgs ws by
        simp [concatMsgs]]
      rw [show (nlLines ((buf ++ w.msg) ++ concatMsgs ws) : List Str) =
        (nlSplitGo [] ((buf ++ w.msg) ++ concatMsgs ws)).1 from rfl, happ]
      rw [show ((nlSplitGo [] (buf ++ w.msg)).1 : List Str) = nlLines (buf ++ w.msg) from rfl]
      rw [show (nlLines (nlRest (buf ++ w.msg) ++ concatMsgs ws) : List Str) =
        (nlSplitGo [] (nlRest (buf ++ w.msg) ++ concatMsgs ws)).1 from rfl, hpush]
      simp [nlRest]
    · show ((specWriteRun absp u (nlSplitGo [] (buf ++ w.msg)).2 ws).2 : Str) = _
      rw [show ((nlSplitGo [] (buf ++ w.msg)).2 : Str) = nlRest (buf ++ w.msg) from rfl]
      rw [ihr.2]
      rw [show buf ++ concatMsgs (w :: ws) = (buf ++ w.msg) ++ concatMsgs ws by
        simp [concatMsgs]]
      rw [show (nlRest ((buf ++ w.msg) ++ concatMsgs ws) : Str) =
        (nlSplitGo [] ((buf ++ w.msg) ++ concatMsgs ws)).2 from rfl, happ]
      rw [show (nlRest (nlRest (buf ++ w.msg) ++ concatMsgs ws) : Str) =
        (nlSplitGo [] (nlRest (buf ++ w.msg) ++ concatMsgs ws)).2 from rfl, hpush]
      simp [nlRest]

theorem pyFlush_fst (st : LoggerState) :
    (pyFlush st).1 = { st with buffer := [] } := by
  unfold pyFlush
  by_cases h : st.buffer = []
  · rw [if_pos h]
    cases st
    simp_all
  · rw [if_neg h]

theorem decorateOwn_ok :
    ∀ l : List (String × PyAttr), l.all (fun na => notOtherCallable na.2) = true →
      decorateOwn l = Except.ok (l.map (fun na => (na.1, wrapOk na.2))) := by
  intro l
  induction l with
  | nil => intro _; rfl
  | cons na rest ih =>
    intro hall
    simp only [List.all_cons, Bool.and_eq_true] at hall
    obtain ⟨n, a⟩ := na
    cases a with
    | func f =>
      rw [decorateOwn]
      simp [pyCallable, ih hall.2, wrapOk, Except.map]
    | callableOther k =>
      exfalso
      simp [notOtherCallable] at hall
    | value v =>
      rw [decorateOwn]
      · simp [pyCallable, ih hall.2, wrapOk, Except.map]
      · intro f hf
        simp at hf

theorem coreEmissions_emitLines (absp : String → String) (lvl : Int) (ur : Bool) :
    ∀ (ls : List Str) (cs : CoreState),
      coreEmissions cs (emitLines absp "" lvl ur ls) =
        ls.map (fun l => (l, cs.file_path)) := by
  intro ls
  induction ls with
  | nil => intro cs; rfl
  | cons l ls ih =>
    intro cs
    simp [emitLines, coreEmissions, coreStep, ih]

theorem pyWrite_shape (absp : String → String) (st : LoggerState) (m : Str)
    (lvl : Int) (ur : Bool) (st2 : LoggerState) (evs : List CoreEvent)
    (h : pyWrite absp st m lvl ur "" = some (st2, evs)) :
    ∃ ls, evs = emitLines absp "" lvl (st.use_rank || ur) ls := by
  unfold pyWrite at h
  by_cases hend : endsWithNL (st.buffer ++ m) = true
  · rw [if_pos hend] at h
    exact ⟨splitlinesKeepends (st.buffer ++ m), by
      injection h with h1
      injection h1 with _ h2
      exact h2.symm⟩
  · rw [if_neg hend] at h
    by_cases hl : splitlinesKeepends (st.buffer ++ m) = []
    · rw [if_pos hl] at h
      exact absurd h (by simp)
    · rw [if_neg hl] at h
      exact ⟨(splitlinesKeepends (st.buffer ++ m)).dropLast, by
        injection h with h1
        injection h1 with _ h2
        exact h2.symm⟩

/-- Claim C10: `reset_print` — and therefore `close` and destruction
(`__del__`), which invoke it — unconditionally sets the process-wide stdout to
the target saved at this Logger's construction, whatever the current target is
and whether or not `redirect_print` was ever called on this instance; so
closing or garbage-collecting a never-redirecting Logger overwrites any
console redirection installed after that Logger was constructed. -/
theorem C10_reset_restores_construction_target :
    ∀ (st : LoggerState) (stdout : Target),
      (pyResetPrint st stdout).2.1 = st.original_stdout ∧
      (pyClose st stdout).2.1 = st.original_stdout ∧
      (pyDel st stdout).2.1 = st.original_stdout ∧
      ∀ (absp : String → String) (cur : Target) (n : String) (fp : Option String),
        (pyInit absp cur n fp "a" (-1) false none none none none).original_stdout
          = cur := by
  intro st stdout
  refine ⟨rfl, ?_, ?_, fun absp cur n fp => rfl⟩
  · simp [pyClose, pyResetPrint, pyFlush_fst]
  · simp [pyDel, pyClose, pyResetPrint, pyFlush_fst]

/-- Claim C9 counterexample: a decorator configured to reuse a
`logger_instance` — here one constructed while stdout was `ext 0` — does not
restore the prior console-output target: calling the wrapper with prior stdout
`ext 1` leaves stdout at `ext 0` afterwards, contradicting the claim that the
prior target is restored after every call. -/
theorem C9_counterexample :
    (runWrapper cfgReuse id (fun t => (Except.ok 0, t)) (Target.ext 1)).2.1 =
      Target.ext 0 ∧ Target.ext 0 ≠ Target.ext 1 := by
  exact ⟨rfl, by decide⟩

/-- Claim C9 amended: the wrapper runs the original callable with stdout
redirected into the acquired Logger and afterwards sets stdout to the target
saved at that Logger's construction, passing the callable's result or raised
exception through unchanged; when the decorator was configured without a
`logger_instance`, the Logger is freshly constructed at call entry, so the
restored target equals the prior one — even when the callable raises. -/
theorem C9_amended :
    ∀ (absp : String → String) (body : Target → PyResult × Target)
      (stdout : Target) (n : String) (fp : Option String) (mo : String)
      (lv : Int) (ur : Bool) (r w : Option Int) (ade : Option String),
      (runWrapper ⟨n, fp, mo, lv, ur, r, w, ade, none⟩ absp body stdout).2.1 =
        stdout ∧
      (runWrapper ⟨n, fp, mo, lv, ur, r, w, ade, none⟩ absp body stdout).1 =
        (body (Target.loggerT stdout)).1 := by
  intro absp body stdout n fp mo lv ur r w ade
  exact ⟨rfl, rfl⟩

/-- Claim C6: `log` passes to the core exactly one message — the sep-joined
parts with end appended — bypassing the line buffer, which (with the whole
Python-side state) is unchanged; in particular `info("a", "b", sep="-",
end=".")` emits the single message `"a-b."` at INFO severity. -/
theorem C6_log_single_message :
    (∀ (absp : String → String) (st : LoggerState) (args : List Str)
      (sep endStr : Str) (lvl : Int) (ur : Bool) (p : String),
      pyLog absp st args sep endStr lvl ur p =
        (st, [CoreEvent.log (List.intercalate sep args ++ endStr) lvl
          (st.use_rank || ur) (if p = "" then "" else absp p)])) ∧
    ∀ st : LoggerState,
      pyInfo id st ["a".toList, "b".toList] "-".toList ".".toList false "" =
        (st, [CoreEvent.log "a-b.".toList INFO st.use_rank ""]) := by
  constructor
  · intro absp st args sep endStr lvl ur p
    rfl
  · intro st
    show (st, [CoreEvent.log (List.intercalate "-".toList
      ["a".toList, "b".toList] ++ ".".toList) INFO (st.use_rank || false) ""]) =
      (st, [CoreEvent.log "a-b.".toList INFO st.use_rank ""])
    rw [show (List.intercalate "-".toList ["a".toList, "b".toList] ++ ".".toList
      : Str) = "a-b.".toList by decide]
    rw [Bool.or_false]

/-- Claim C4: when the buffer holds a trailing fragment, `flush` emits exactly
that fragment once, at the NOTSET level with the instance's `use_rank`, and
clears the buffer; the core renders a NOTSET message with no timestamp or
level fields (only the optional rank tag); an immediately following second
flush emits no log lines. -/
theorem C4_flush_fragment_once :
    ∀ st : LoggerState, st.buffer ≠ [] →
      pyFlush st = ({ st with buffer := [] },
        [CoreEvent.log st.buffer NOTSET st.use_rank "", CoreEvent.flush]) ∧
      (∀ (ts nm : String) (r w : Int) (u : Bool),
        formatLine ts nm r w st.buffer NOTSET u =
          (rankTag u r w).toList ++ st.buffer) ∧
      eventMsgs (pyFlush { st with buffer := [] }).2 = [] := by
  intro st h
  refine ⟨?_, ?_, ?_⟩
  · unfold pyFlush
    rw [if_neg h, NOTSET]
  · intro ts nm r w u
    unfold formatLine
    rw [if_pos rfl]
  · unfold pyFlush
    simp [eventMsgs]

/-- Claim C4 witness: flushing a Logger whose buffer holds the fragment "x". -/
theorem C4_flush_fragment_once_witness :
    loggerC5.buffer ≠ [] ∧
    (pyFlush loggerC5 = ({ loggerC5 with buffer := [] },
        [CoreEvent.log loggerC5.buffer NOTSET loggerC5.use_rank "",
         CoreEvent.flush]) ∧
      (∀ (ts nm : String) (r w : Int) (u : Bool),
        formatLine ts nm r w loggerC5.buffer NOTSET u =
          (rankTag u r w).toList ++ loggerC5.buffer) ∧
      eventMsgs (pyFlush { loggerC5 with buffer := [] }).2 = []) :=
  ⟨by decide, C4_flush_fragment_once loggerC5 (by decide)⟩

/-- Claim C3: the claim asserts that a Logger constructed with
`use_rank=true, rank=0, world_size=10` uses the supplied values as given and
prefixes every line with `"[0/10] "`.  The constructor instead evaluates
`rank or -1`, so the explicit rank `0` is replaced by `-1` (unresolved), and
with the rank unresolved the core emits no prefix (absent environment
auto-detection) — contradicting the class's own docstring example, which shows
`[0/10]` for exactly this construction.  The claim's second half (a Logger
with `use_rank=false` never gets a prefix) does hold of the modelled core. -/
theorem C3_explicit_rank_zero_dropped :
    ∀ (absp : String → String) (stdout : Target),
      (pyInit absp stdout "L" (some "log.txt") "a" (-1) true (some 0) (some 10)
        none none).rank = -1 ∧
      (pyInit absp stdout "L" (some "log.txt") "a" (-1) true (some 0) (some 10)
        none none).world_size = 10 ∧
      rankTag true (-1) 10 = "" ∧
      rankTag true 0 10 = "[0/10] " ∧
      (∀ r w : Int, rankTag false r w = "") := by
  intro absp stdout
  refine ⟨rfl, rfl, by decide, by decide, fun r w => by simp [rankTag]⟩

/-- Claim C1 counterexample: for the Logger `loggerC1` (mode "w", rank 2,
log_rank 5), a reconfigure supplying only a new file path changes log_rank
from 5 to 2 (the source assigns `self.log_rank = log_rank or self.rank`) and
mode from "w" to "a" (the default mode argument `'a'` is truthy and always
merged) — the claim says every field left at its no-op default keeps its
previous value, log_rank and mode in particular. -/
theorem C1_counterexample :
    (pyReconfigure id loggerC1 none (some "f1") "a" none none none none none
      none).1.log_rank = 2 ∧
    loggerC1.log_rank = 5 ∧
    (pyReconfigure id loggerC1 none (some "f1") "a" none none none none none
      none).1.mode = "a" ∧
    loggerC1.mode = "w" := by
  refine ⟨by decide, by decide, by decide, by decide⟩

/-- Claim C1 amended: a reconfigure that supplies only a new file path keeps
name, level, use_rank, rank, world_size and auto_detect_env unchanged and sets
the file path to the absolutised new path, but resets mode to the default
`'a'` (whose truthiness makes it indistinguishable from an explicit `'a'`) and
sets log_rank to the merged rank (the source reads `self.rank`, not
`self.log_rank`, in its `log_rank` merge). -/
theorem C1_amended :
    ∀ (absp : String → String) (st : LoggerState) (p : String), p ≠ "" →
      (pyReconfigure absp st none (some p) "a" none none none none none
        none).1.name = st.name ∧
      (pyReconfigure absp st none (some p) "a" none none none none none
        none).1.level = st.level ∧
      (pyReconfigure absp st none (some p) "a" none none none none none
        none).1.use_rank = st.use_rank ∧
      (pyReconfigure absp st none (some p) "a" none none none none none
        none).1.rank = st.rank ∧
      (pyReconfigure absp st none (some p) "a" none none none none none
        none).1.world_size = st.world_size ∧
      (pyReconfigure absp st none (some p) "a" none none none none none
        none).1.auto_detect_env = st.auto_detect_env ∧
      (pyReconfigure absp st none (some p) "a" none none none none none
        none).1.file_path = absp p ∧
      (pyReconfigure absp st none (some p) "a" none none none none none
        none).1.mode = "a" ∧
      (pyReconfigure absp st none (some p) "a" none none none none none
        none).1.log_rank = st.rank := by
  intro absp st p hp
  unfold pyReconfigure
  rw [pyFlush_fst]
  simp [pyTruthyStr, pyTruthyInt, pyTruthyBool, hp]

/-- Claim C1 witness: reconfiguring `loggerC1` with only the path "f1". -/
theorem C1_amended_witness :
    ("f1" : String) ≠ "" ∧
    ((pyReconfigure id loggerC1 none (some "f1") "a" none none none none none
        none).1.name = loggerC1.name ∧
      (pyReconfigure id loggerC1 none (some "f1") "a" none none none none none
        none).1.level = loggerC1.level ∧
      (pyReconfigure id loggerC1 none (some "f1") "a" none none none none none
        none).1.use_rank = loggerC1.use_rank ∧
      (pyReconfigure id loggerC1 none (some "f1") "a" none none none none none
        none).1.rank = loggerC1.rank ∧
      (pyReconfigure id loggerC1 none (some "f1") "a" none none none none none
        none).1.world_size = loggerC1.world_size ∧
      (pyReconfigure id loggerC1 none (some "f1") "a" none none none none none
        none).1.auto_detect_env = loggerC1.auto_detect_env ∧
      (pyReconfigure id loggerC1 none (some "f1") "a" none none none none none
        none).1.file_path = id "f1" ∧
      (pyReconfigure id loggerC1 none (some "f1") "a" none none none none none
        none).1.mode = "a" ∧
      (pyReconfigure id loggerC1 none (some "f1") "a" none none none none none
        none).1.log_rank = loggerC1.rank) :=
  ⟨by decide, C1_amended id loggerC1 "f1" (by decide)⟩

/-- Claim C5 counterexample: reconfiguring `loggerC5` (pending fragment "x",
use_rank false) with `use_rank=True` emits the pending fragment with the
newly supplied `use_rank=True` — the source merges the new settings into the
instance before flushing — contradicting the claim that the pending content
is flushed before any newly supplied setting is applied. -/
theorem C5_counterexample :
    (pyReconfigure id loggerC5 none none "a" none (some true) none none none
      none).2.head? = some (CoreEvent.log ['x'] (-1) true "") ∧
    loggerC5.use_rank = false := by
  refine ⟨by decide, by decide⟩

/-- Claim C5 amended: with pending buffered content, `reconfigure` first
merges the supplied settings into the instance, then emits the pending
fragment through the core — before the core's configuration is updated, so
the fragment is written to the core's current (old) file — and only then
reconfigures the core.  When only the file path is supplied the merged
settings other than path, mode and log_rank equal the old ones, so the
pending fragment is emitted with the old use_rank to the old file, and every
subsequent write is emitted under the new file path. -/
theorem C5_amended :
    ∀ (absp : String → String) (st : LoggerState) (cs : CoreState) (p : String),
      st.buffer ≠ [] → p ≠ "" →
      (pyReconfigure absp st none (some p) "a" none none none none none
        none).2 =
        [CoreEvent.log st.buffer (-1) st.use_rank "", CoreEvent.flush,
         CoreEvent.reconfigure st.name (absp p) "a" st.level st.use_rank
           st.rank st.world_size st.auto_detect_env st.rank] ∧
      coreEmissions cs (pyReconfigure absp st none (some p) "a" none none none
        none none none).2 = [(st.buffer, cs.file_path)] ∧
      (((pyReconfigure absp st none (some p) "a" none none none none none
        none).2).foldl coreStep cs).file_path = absp p ∧
      (∀ (m : Str) (lvl : Int) (ur : Bool) (st2 : LoggerState)
        (evs2 : List CoreEvent),
        pyWrite absp (pyReconfigure absp st none (some p) "a" none none none
          none none none).1 m lvl ur "" = some (st2, evs2) →
        ∀ e ∈ coreEmissions (((pyReconfigure absp st none (some p) "a" none
          none none none none none).2).foldl coreStep cs) evs2,
          e.2 = absp p) := by
  intro absp st cs p hbuf hp
  have hevs : (pyReconfigure absp st none (some p) "a" none none none none
      none none).2 =
      [CoreEvent.log st.buffer (-1) st.use_rank "", CoreEvent.flush,
       CoreEvent.reconfigure st.name (absp p) "a" st.level st.use_rank
         st.rank st.world_size st.auto_detect_env st.rank] := by
    unfold pyReconfigure pyFlush
    simp [pyTruthyStr, pyTruthyInt, pyTruthyBool, hp, hbuf]
  refine ⟨hevs, ?_, ?_, ?_⟩
  · rw [hevs]
    simp [coreEmissions, coreStep]
  · rw [hevs]
    simp [coreStep]
  · intro m lvl ur st2 evs2 hw e he
    obtain ⟨ls, hls⟩ := pyWrite_shape absp _ m lvl ur st2 evs2 hw
    subst hls
    rw [coreEmissions_emitLines] at he
    rcases List.mem_map.mp he with ⟨l, _, hl⟩
    rw [← hl]
    show (((pyReconfigure absp st none (some p) "a" none none none none none
      none).2).foldl coreStep cs).file_path = absp p
    rw [hevs]
    simp [coreStep]

/-- Claim C5 witness: `loggerC5` (pending fragment "x") reconfigured from the
core state `coreW` (old file "/old.log") to the new path "new.log". -/
theorem C5_amended_witness :
    loggerC5.buffer ≠ [] ∧ ("new.log" : String) ≠ "" ∧
    ((pyReconfigure id loggerC5 none (some "new.log") "a" none none none none
        none none).2 =
        [CoreEvent.log loggerC5.buffer (-1) loggerC5.use_rank "",
         CoreEvent.flush,
         CoreEvent.reconfigure loggerC5.name (id "new.log") "a"
           loggerC5.level loggerC5.use_rank loggerC5.rank loggerC5.world_size
           loggerC5.auto_detect_env loggerC5.rank] ∧
      coreEmissions coreW (pyReconfigure id loggerC5 none (some "new.log") "a"
        none none none none none none).2 =
        [(loggerC5.buffer, coreW.file_path)] ∧
      (((pyReconfigure id loggerC5 none (some "new.log") "a" none none none
        none none none).2).foldl coreStep coreW).file_path = id "new.log" ∧
      (∀ (m : Str) (lvl : Int) (ur : Bool) (st2 : LoggerState)
        (evs2 : List CoreEvent),
        pyWrite id (pyReconfigure id loggerC5 none (some "new.log") "a" none
          none none none none none).1 m lvl ur "" = some (st2, evs2) →
        ∀ e ∈ coreEmissions (((pyReconfigure id loggerC5 none (some "new.log")
          "a" none none none none none none).2).foldl coreStep coreW) evs2,
          e.2 = id "new.log")) :=
  ⟨by decide, by decide, C5_amended id loggerC5 coreW "new.log" (by decide)
    (by decide)⟩

/-- Claim C8 counterexample: applying the decorator to the class `heapBad 0`,
whose only directly-declared callable attribute is not a function, raises
ValueError instead of returning the class with that attribute wrapped. -/
theorem C8_counterexample :
    decorateClass heapBad 0 =
      Except.error
        "This decorator can only be applied to functions, methods, or classes."
    := rfl

/-- Claim C8 amended: when every directly-declared callable attribute of the
class is a function, the decorator replaces each of them with its wrapped
version, leaves non-callable attributes and attributes inherited from base
classes untouched, mutates the class object in place on the heap — every
other heap object is unchanged — and returns that same class object; a
directly-declared callable attribute that is neither a function, a method nor
a class instead makes the decorator raise ValueError. -/
theorem C8_amended :
    ∀ (h : ClassHeap) (i : Nat),
      ((h i).own.all fun na => notOtherCallable na.2) = true →
      decorateClass h i =
        Except.ok (heapSet h i
          { h i with own := (h i).own.map (fun na => (na.1, wrapOk na.2)) },
          i) ∧
      (heapSet h i
        { h i with own := (h i).own.map (fun na => (na.1, wrapOk na.2)) } i
        ).inherited = (h i).inherited ∧
      (∀ j, j ≠ i →
        heapSet h i
          { h i with own := (h i).own.map (fun na => (na.1, wrapOk na.2)) } j
          = h j) := by
  intro h i hall
  refine ⟨?_, ?_, ?_⟩
  · unfold decorateClass
    rw [decorateOwn_ok (h i).own hall]
  · simp [heapSet]
  · intro j hj
    simp [heapSet, hj]

/-- Claim C8 witness: decorating the class `heapGood 0`, which directly
declares the method "m" and value "v" and inherits "b". -/
theorem C8_amended_witness :
    ((heapGood 0).own.all fun na => notOtherCallable na.2) = true ∧
    (decorateClass heapGood 0 =
        Except.ok (heapSet heapGood 0
          { heapGood 0 with
            own := (heapGood 0).own.map (fun na => (na.1, wrapOk na.2)) },
          0) ∧
      (heapSet heapGood 0
        { heapGood 0 with
          own := (heapGood 0).own.map (fun na => (na.1, wrapOk na.2)) } 0
        ).inherited = (heapGood 0).inherited ∧
      (∀ j, j ≠ 0 →
        heapSet heapGood 0
          { heapGood 0 with
            own := (heapGood 0).own.map (fun na => (na.1, wrapOk na.2)) } j
          = heapGood 0)) := by
  refine ⟨by decide, ?_⟩
  have h0 := C8_amended heapGood 0 (by decide)
  exact ⟨h0.1, h0.2.1, fun j hj => h0.2.2 j hj⟩

/-- Claim C7: the line buffer never contains a complete newline-terminated
line (equivalently, never contains `'\n'` at all): it is empty at
construction, and every operation — write (whenever it returns), flush, log,
reconfigure, close — leaves a `'\n'`-free buffer, with no assumption on the
incoming state needed except for `log`, which leaves the state unchanged. -/
theorem C7_buffer_invariant :
    (∀ (absp : String → String) (stdout : Target) (n : String)
      (fp : Option String) (mo : String) (lv : Int) (ur : Bool)
      (r w : Option Int) (ade : Option String) (lr : Option Int),
      '\n' ∉ (pyInit absp stdout n fp mo lv ur r w ade lr).buffer) ∧
    (∀ (absp : String → String) (st : LoggerState) (m : Str) (lvl : Int)
      (ur : Bool) (p : String) (st2 : LoggerState) (evs : List CoreEvent),
      pyWrite absp st m lvl ur p = some (st2, evs) → '\n' ∉ st2.buffer) ∧
    (∀ st : LoggerState, '\n' ∉ (pyFlush st).1.buffer) ∧
    (∀ (absp : String → String) (st : LoggerState) (args : List Str)
      (sep endStr : Str) (lvl : Int) (ur : Bool) (p : String),
      '\n' ∉ st.buffer →
      '\n' ∉ (pyLog absp st args sep endStr lvl ur p).1.buffer) ∧
    (∀ (absp : String → String) (st : LoggerState) (n fp : Option String)
      (mo : String) (lv : Option Int) (ur : Option Bool)
      (r w : Option Int) (ade : Option String) (lr : Option Int),
      '\n' ∉ (pyReconfigure absp st n fp mo lv ur r w ade lr).1.buffer) ∧
    (∀ (st : LoggerState) (stdout : Target),
      '\n' ∉ (pyClose st stdout).1.buffer) := by
  refine ⟨?_, ?_, ?_, ?_, ?_, ?_⟩
  · intro absp stdout n fp mo lv ur r w ade lr
    simp [pyInit]
  · intro absp st m lvl ur p st2 evs h
    unfold pyWrite at h
    by_cases hend : endsWithNL (st.buffer ++ m) = true
    · rw [if_pos hend] at h
      injection h with h1
      injection h1 with hst _
      rw [← hst]
      simp
    · by_cases hl : splitlinesKeepends (st.buffer ++ m) = []
      · rw [if_neg hend, if_pos hl] at h
        exact absurd h (by simp)
      · rw [if_neg hend, if_neg hl] at h
        injection h with h1
        injection h1 with hst _
        rw [← hst]
        exact splitlinesGo_last_no_nl [] (st.buffer ++ m) (by simp)
          (by simpa using hend)
  · intro st
    rw [pyFlush_fst]
    simp
  · intro absp st args sep endStr lvl ur p h
    exact h
  · intro absp st n fp mo lv ur r w ade lr
    unfold pyReconfigure
    rw [pyFlush_fst]
    simp
  · intro st stdout
    simp [pyClose, pyResetPrint, pyFlush_fst]

/-- Claim C7 witness: a write completing the line "a\n" and retaining the
fragment "b" keeps the buffer `'\n'`-free. -/
theorem C7_buffer_invariant_witness :
    pyWrite id logger0 ['a', '\n', 'b'] (-1) false "" =
      some ({ logger0 with buffer := ['b'] },
        [CoreEvent.log ['a', '\n'] (-1) false ""]) ∧
    '\n' ∉ ({ logger0 with buffer := ['b'] } : LoggerState).buffer :=
  ⟨by decide,
    C7_buffer_invariant.2.1 id logger0 ['a', '\n', 'b'] (-1) false ""
      { logger0 with buffer := ['b'] }
      [CoreEvent.log ['a', '\n'] (-1) false ""] (by decide)⟩

/-- Claim C2 counterexample: the single call `write("a\rb")` emits the
message "a\r" — which is not a `'\n'`-terminated line, and the
`'\n'`-terminated lines of the input are in fact `[]` — because Python's
`splitlines` also breaks at carriage returns; additionally, `write("")` on an
empty buffer raises IndexError (`lines.pop()` on an empty list) instead of
emitting nothing. -/
theorem C2_counterexample :
    pyWrite id logger0 ['a', '\r', 'b'] (-1) false "" =
      some ({ logger0 with buffer := ['b'] },
        [CoreEvent.log ['a', '\r'] (-1) false ""]) ∧
    nlLines ['a', '\r', 'b'] = [] ∧
    pyWrite id logger0 [] (-1) false "" = none := by
  refine ⟨by decide, by decide, by decide⟩

/-- Claim C2 amended: provided every written message is nonempty and contains
no line-boundary character other than `'\n'`, a sequence of `write` calls
starting from an empty buffer emits exactly the `'\n'`-terminated lines of
the concatenated input, in order, each line tagged with the level of the call
that completed it and with the OR of the instance's and that call's
`use_rank`, and leaves the trailing unterminated fragment in the buffer. -/
theorem C2_amended :
    ∀ (absp : String → String) (st : LoggerState) (ws : List WriteCall),
      st.buffer = [] →
      (∀ w ∈ ws, w.msg ≠ [] ∧ benign w.msg = true) →
      runWrites absp st ws =
        some ({ st with buffer := nlRest (concatMsgs ws) },
          (specWriteRun absp st.use_rank [] ws).1) ∧
      eventMsgs (specWriteRun absp st.use_rank [] ws).1 =
        nlLines (concatMsgs ws) := by
  intro absp st ws hbuf hw
  have hb : ∀ c ∈ st.buffer, isLineBoundary c = false := by
    rw [hbuf]
    simp
  have h2 := specWriteRun_chars absp st.use_rank ws [] (by simp)
    (fun w hmem => (hw w hmem).2)
  constructor
  · have h1 := runWrites_eq_spec absp ws st hb hw
    rw [hbuf] at h1
    rw [h1, h2.2]
    simp
  · rw [h2.1]
    simp

/-- Claim C2 witness: the two calls `write("ab\nc")` at level 20 and
`write("d\n")` at level 30 with per-call use_rank true. -/
theorem C2_amended_witness :
    logger0.buffer = [] ∧
    (∀ w ∈ wsW, w.msg ≠ [] ∧ benign w.msg = true) ∧
    (runWrites id logger0 wsW =
        some ({ logger0 with buffer := nlRest (concatMsgs wsW) },
          (specWriteRun id logger0.use_rank [] wsW).1) ∧
      eventMsgs (specWriteRun id logger0.use_rank [] wsW).1 =
        nlLines (concatMsgs wsW)) :=
  ⟨rfl, by decide, C2_amended id logger0 wsW rfl (by decide)⟩
